import Mathlib

/-!
# Blogicum visibility and ownership engine: a shallow embedding

This file embeds the queryset logic of `blog/views.py`, `blog/mixins.py`
and `blog/forms.py` of the blogicum repository and proves/refutes the
frozen claims about it.

Modelling conventions:
* timestamps are `Nat` (only `≤` comparisons matter);
* primary keys are `Nat`;
* the relational store is a `Db` structure of lists;
* Django querysets that raise `Http404` when empty become `Except Err _`;
* `request.user` for login-required views is a `User` (always
  authenticated there); where an anonymous viewer is possible the
  viewer is an `Option Nat` (the user id, `none` = anonymous).
-/

/-- An account.  Only the fields the authorization logic can touch are
kept: the primary key and the `is_staff` flag (the code never reads
`is_staff`, which is exactly what the staff-bypass claims are about). -/
structure User where
  id : Nat
  is_staff : Bool
  deriving DecidableEq, Repr

/-- A `Category` row: primary key, unique slug, publication flag. -/
structure Category where
  id : Nat
  slug : String
  is_published : Bool
  deriving DecidableEq, Repr

/-- A `Post` row, with the fields exposed through the views:
`author` and `category`/`location` are foreign keys (by id), and
`category`/`location` are nullable. -/
structure Post where
  id : Nat
  title : String
  text : String
  pub_date : Nat
  is_published : Bool
  author : Nat
  category : Option Nat
  location : Option Nat
  image : Option String
  deriving DecidableEq, Repr

/-- A `Comment` row: text, author FK, parent post FK, creation time. -/
structure Comment where
  id : Nat
  text : String
  author : Nat
  post : Nat
  created_at : Nat
  deriving DecidableEq, Repr

/-- The relational store visible to the blog views. -/
structure Db where
  posts : List Post
  categories : List Category
  comments : List Comment
  deriving DecidableEq, Repr

/-- Error taxonomy of the views: `Http404` and form validation failure. -/
inductive Err where
  | notFound
  | validationError
  deriving DecidableEq, Repr

/-- `Count("comments")` annotation: the live number of comments attached
to `p` at resolution time. -/
def commentCount (db : Db) (p : Post) : Nat :=
  (db.comments.filter (fun c => c.post == p.id)).length

/-- The SQL semantics of `.filter(category__is_published=True)`: the
join on the nullable `category` FK keeps a row only when the FK is set
and the referenced `Category` row has `is_published=True`.  A post with
`category = NULL` is dropped by this filter. -/
def categoryPublished (db : Db) (p : Post) : Bool :=
  match p.category with
  | none => false
  | some cid =>
    match db.categories.find? (fun c => c.id == cid) with
    | none => false
    | some c => c.is_published

/-- The filter of `PostQuerySetMixin.get_base_queryset`
(views.py 24-33): `is_published=True, pub_date__lte=timezone.now(),
category__is_published=True`.  No author clause appears anywhere. -/
def baseFilter (db : Db) (now : Nat) (p : Post) : Bool :=
  p.is_published && decide (p.pub_date ≤ now) && categoryPublished db p

/-- `get_base_queryset` as a set of rows (the annotation is
`commentCount`; ordering is treated separately since the source attaches
none here). -/
def baseQueryset (db : Db) (now : Nat) : List Post :=
  db.posts.filter (baseFilter db now)

/-- `IndexView` / `PostListView.get_queryset` (views.py 43-44): the
index listing is exactly the base queryset, independent of the viewer. -/
def indexListing (db : Db) (now : Nat) : List Post :=
  baseQueryset db now

/-- `CategoryPostsView.get_queryset` (views.py 90-95):
`get_object_or_404(Category.objects.filter(is_published=True), slug=...)`
then the base queryset restricted to that category. -/
def categoryPostsListing (db : Db) (now : Nat) (slug : String) :
    Except Err (Category × List Post) :=
  match db.categories.find? (fun c => c.slug == slug && c.is_published) with
  | none => .error .notFound
  | some cat =>
    .ok (cat, (baseQueryset db now).filter (fun p => p.category == some cat.id))

/-- `PostDetailView.get_queryset` is `get_base_queryset()`
(views.py 59-60); `DetailView` then looks the pk up in it and raises
`Http404` on a miss.  The viewer does not appear: the author of a
filtered-out post gets the same 404 as everyone else. -/
def postDetail (db : Db) (now : Nat) (pid : Nat) : Except Err Post :=
  match (baseQueryset db now).find? (fun p => p.id == pid) with
  | none => .error .notFound
  | some p => .ok p

/-- The filter of the spec's §3 `isPubliclyVisible` predicate, written
from the spec's words for comparison with `baseFilter`: an unset
category is treated as published. -/
def specPubliclyVisible (db : Db) (now : Nat) (p : Post) : Bool :=
  p.is_published && decide (p.pub_date ≤ now) &&
    (match p.category with
     | none => true
     | some cid =>
       match db.categories.find? (fun c => c.id == cid) with
       | none => false
       | some c => c.is_published)

/-- The spec's §3 viewer-facing visibility predicate, written from the
spec's words: the author always sees the post, everyone else needs
public visibility. -/
def specVisibleTo (viewer : Option Nat) (db : Db) (now : Nat) (p : Post) : Bool :=
  (viewer == some p.author) || specPubliclyVisible db now p

/-- `PostUpdateView.get_queryset` / `PostDeleteView.get_queryset`
(views.py 193-194, 210-211): `Post.objects.filter(author=request.user)`,
then the pk lookup done by `UpdateView`/`DeleteView`. -/
def fetchPostForEdit (db : Db) (viewer : User) (pid : Nat) : Option Post :=
  (db.posts.filter (fun p => p.author == viewer.id)).find? (fun p => p.id == pid)

/-- `CommentUpdateView.get_queryset` / `CommentDeleteView.get_queryset`
(views.py 225-226, 255-256): `Comment.objects.filter(author=request.user)`,
then the pk lookup. -/
def fetchCommentForEdit (db : Db) (viewer : User) (cid : Nat) : Option Comment :=
  (db.comments.filter (fun c => c.author == viewer.id)).find? (fun c => c.id == cid)

/-- The field list of `PostCreateView`/`PostUpdateView`
(views.py 172, 190): the data a post form can set.  `author` is not
among them. -/
structure PostFields where
  title : String
  text : String
  pub_date : Nat
  location : Option Nat
  category : Option Nat
  image : Option String
  deriving DecidableEq, Repr

/-- `PostCreateView.form_valid` (views.py 174-176): the new row takes
the form's fields and `author` is assigned from `request.user`. -/
def createPost (actor : User) (f : PostFields) (newId : Nat) : Post :=
  { id := newId, title := f.title, text := f.text, pub_date := f.pub_date,
    is_published := true, author := actor.id, category := f.category,
    location := f.location, image := f.image }

/-- `PostUpdateView` saving a valid form: only the declared fields are
written back; `author` (and `id`) are untouched. -/
def applyPostFields (p : Post) (f : PostFields) : Post :=
  { p with
    title := f.title
    text := f.text
    pub_date := f.pub_date
    location := f.location
    category := f.category
    image := f.image }

/-- The post-edit operation end to end: the author-filtered queryset
lookup, then the field update; a miss is `Http404` and nothing is
written. -/
def updatePostOp (db : Db) (viewer : User) (pid : Nat) (f : PostFields) :
    Except Err Db :=
  match fetchPostForEdit db viewer pid with
  | none => .error .notFound
  | some p =>
    .ok { db with posts := db.posts.map (fun q => if q.id == p.id then applyPostFields q f else q) }

/-- The post-delete operation: author-filtered lookup, then removal;
deleting a post cascades to its comments. -/
def deletePostOp (db : Db) (viewer : User) (pid : Nat) : Except Err Db :=
  match fetchPostForEdit db viewer pid with
  | none => .error .notFound
  | some p =>
    .ok { db with
          posts := db.posts.filter (fun q => !(q.id == p.id))
          comments := db.comments.filter (fun c => !(c.post == p.id)) }

/-- The comment-edit operation (views.py 217-226): author-filtered
lookup, then the text update. -/
def editCommentOp (db : Db) (viewer : User) (cid : Nat) (text : String) :
    Except Err Db :=
  match fetchCommentForEdit db viewer cid with
  | none => .error .notFound
  | some c =>
    .ok { db with comments := db.comments.map (fun d => if d.id == c.id then { d with text := text } else d) }

/-- The comment-delete operation (views.py 248-256): author-filtered
lookup, then removal. -/
def deleteCommentOp (db : Db) (viewer : User) (cid : Nat) : Except Err Db :=
  match fetchCommentForEdit db viewer cid with
  | none => .error .notFound
  | some c =>
    .ok { db with comments := db.comments.filter (fun d => !(d.id == c.id)) }

/-- Modelled from the spec: the `Comment` model (blog/models.py) is not
in src/, so the validation that `CreateCommentForm` (forms.py, fields
`('text',)`) inherits from the model's `text` field is taken from the
spec, which says add-comment "fails with `ValidationError` if `text` is
empty or whitespace-only".  The form is valid exactly when the text has
a non-whitespace character. -/
def commentTextValid (text : String) : Bool :=
  text.data.any (fun ch => !ch.isWhitespace)

/-- `add_comment` (views.py 287-297): `get_object_or_404(Post, id=post_id)`
first, then the form; on a valid form a comment owned by the viewer is
appended, on an invalid form nothing is saved. -/
def addComment (db : Db) (viewer : User) (postId : Nat) (text : String)
    (newId createdAt : Nat) : Except Err Db :=
  match db.posts.find? (fun p => p.id == postId) with
  | none => .error .notFound
  | some _ =>
    if commentTextValid text then
      .ok { db with comments :=
        db.comments ++ [{ id := newId, text := text.trim, author := viewer.id,
                          post := postId, created_at := createdAt }] }
    else
      .error .validationError

/-- `ProfileView._get_user_posts` (views.py 115-123): the target's posts
(annotated with comment counts); the owner sees all of them, anyone else
only those passing the same public triple filter as the base queryset. -/
def userPosts (db : Db) (viewer : Option Nat) (u : Nat) (now : Nat) :
    List (Post × Nat) :=
  let posts := db.posts.filter (fun p => p.author == u)
  let annotated := posts.map (fun p => (p, commentCount db p))
  if viewer == some u then annotated
  else annotated.filter (fun pc => baseFilter db now pc.1)

/-- The filter of `mixins.get_post_queryset` (mixins.py 11-16), kwargs
in the source's order: `is_published=True, category__is_published=True,
pub_date__lte=timezone.now()`. -/
def mixinsFilter (db : Db) (now : Nat) (p : Post) : Bool :=
  p.is_published && categoryPublished db p && decide (p.pub_date ≤ now)

/-- The row set produced by `mixins.get_post_queryset` (mixins.py 9-19)
with/without `apply_filters` (the `apply_annotation` branch adds
`comment_count` and the ordering, treated below). -/
def mixinsPostRows (db : Db) (now : Nat) (apply_filters : Bool) : List Post :=
  if apply_filters then db.posts.filter (mixinsFilter db now) else db.posts

/-- The SQL semantics of `.order_by('-pub_date')` (mixins.py 18): the
engine may return any permutation of the rows that is non-increasing in
`pub_date`; nothing constrains the relative order of rows with equal
`pub_date`. -/
def orderByPubDateDescAdmissible (input output : List Post) : Prop :=
  output.Perm input ∧ output.Pairwise (fun a b => b.pub_date ≤ a.pub_date)

/-- The ordering the spec's words demand, written from the spec for
comparison: descending by `pubDate`, equal `pubDate` broken by `id`
ascending. -/
def claimListingOrder (l : List Post) : Prop :=
  l.Pairwise (fun a b =>
    b.pub_date < a.pub_date ∨ (b.pub_date = a.pub_date ∧ a.id < b.id))

/-- Django `Paginator.num_pages` with `allow_empty_first_page=True`:
`ceil(max(1, count) / per_page)`. -/
def numPages (count perPage : Nat) : Nat :=
  (max 1 count + perPage - 1) / perPage

/-- Django `Paginator.get_page(number)` as used by
`ProfileView._paginate_posts` (views.py 125-127): a missing or
non-numeric `page` parameter (`none`) falls back to page 1
(`PageNotAnInteger`); a number below 1 or above `num_pages` falls back
to the last page (`EmptyPage` is caught and `num_pages` returned).  It
never raises. -/
def getPageNumber (count perPage : Nat) (arg : Option Int) : Nat :=
  match arg with
  | none => 1
  | some n =>
    if n < 1 then numPages count perPage
    else if (numPages count perPage : Int) < n then numPages count perPage
    else n.toNat

/-- The slice of items on 1-indexed page `pageNum`. -/
def pageItems (l : List (Post × Nat)) (perPage pageNum : Nat) : List (Post × Nat) :=
  (l.drop ((pageNum - 1) * perPage)).take perPage

/-- `ProfileView` end to end for the post box: `_get_user_posts` then
`_paginate_posts` with `Paginator(posts, paginate_by).get_page(...)`. -/
def profilePage (db : Db) (viewer : Option Nat) (u : Nat) (now perPage : Nat)
    (arg : Option Int) : List (Post × Nat) :=
  let posts := userPosts db viewer u now
  pageItems posts perPage (getPageNumber posts.length perPage arg)

/-! ## Concrete fixtures for counterexamples and witnesses -/

/-- A published category with id 1 and slug "life". -/
def catLife : Category := { id := 1, slug := "life", is_published := true }

/-- An unpublished category with id 2 and slug "hidden". -/
def catHidden : Category := { id := 2, slug := "hidden", is_published := false }

/-- An unpublished, past-dated post by author 1 in the published
category. -/
def postDraft : Post :=
  { id := 10, title := "", text := "", pub_date := 0, is_published := false,
    author := 1, category := some 1, location := none, image := none }

/-- A published, past-dated post by author 2 with no category. -/
def postNoCat : Post :=
  { id := 11, title := "", text := "", pub_date := 0, is_published := true,
    author := 2, category := none, location := none, image := none }

/-- A fully publishable post by author 7 in the unpublished category. -/
def postInHidden : Post :=
  { id := 12, title := "", text := "", pub_date := 0, is_published := true,
    author := 7, category := some 2, location := none, image := none }

/-- A fully publishable post by author 7 in the published category. -/
def postPub : Post :=
  { id := 13, title := "", text := "", pub_date := 0, is_published := true,
    author := 7, category := some 1, location := none, image := none }

/-- Two published posts with equal `pub_date` and ids 20 < 21, both in
the published category. -/
def postTieA : Post :=
  { id := 20, title := "", text := "", pub_date := 5, is_published := true,
    author := 1, category := some 1, location := none, image := none }

/-- See `postTieA`. -/
def postTieB : Post :=
  { id := 21, title := "", text := "", pub_date := 5, is_published := true,
    author := 1, category := some 1, location := none, image := none }

/-- A comment with id 1, author 2, on post 13. -/
def commentOther : Comment :=
  { id := 1, text := "hi", author := 2, post := 13, created_at := 0 }

/-- Store used by the visibility counterexamples: the author-owned draft
and the category-less public post are the only posts. -/
def dbVis : Db :=
  { posts := [postDraft, postNoCat], categories := [catLife], comments := [] }

/-- Store with one publishable post inside an unpublished category. -/
def dbHidden : Db :=
  { posts := [postInHidden], categories := [catHidden], comments := [] }

/-- Store with one public post by author 7 and one foreign comment. -/
def dbPub : Db :=
  { posts := [postPub], categories := [catLife], comments := [commentOther] }

/-- Store with the two equal-`pub_date` posts. -/
def dbTie : Db :=
  { posts := [postTieA, postTieB], categories := [catLife], comments := [] }

/-! ## Helper lemmas about keyed lookups -/

/-- In a list whose keys are distinct, equal keys force equal elements. -/
theorem eq_of_key_eq_of_nodup_map {α : Type} (key : α → Nat) {l : List α}
    (hnd : (l.map key).Nodup) {a b : α} (ha : a ∈ l) (hb : b ∈ l)
    (hk : key a = key b) : a = b := by
  induction l with
  | nil => cases ha
  | cons x xs ih =>
    rw [List.map_cons, List.nodup_cons] at hnd
    rcases List.mem_cons.mp ha with rfl | ha' <;>
      rcases List.mem_cons.mp hb with rfl | hb'
    · rfl
    · exact absurd (hk ▸ List.mem_map_of_mem key hb') hnd.1
    · exact absurd (hk ▸ List.mem_map_of_mem key ha') hnd.1
    · exact ih hnd.2 ha' hb'

/-- A keyed `find?` over a filtered list misses when no element carries
both the key and the filter. -/
theorem find_key_filter_eq_none {α : Type} (key : α → Nat) (f : α → Bool)
    (k : Nat) (l : List α) (h : ∀ a ∈ l, key a = k → f a = false) :
    (l.filter f).find? (fun x => key x == k) = none := by
  rw [List.find?_eq_none]
  intro x hx
  rcases List.mem_filter.mp hx with ⟨hmem, hf⟩
  intro hbeq
  have hkey : key x = k := by simpa using hbeq
  rw [h x hmem hkey] at hf
  cases hf

/-- A keyed `find?` over a filtered list with distinct keys returns a
given member exactly when that member carries the key and passes the
filter. -/
theorem find_key_filter_eq_some_iff {α : Type} (key : α → Nat) (f : α → Bool)
    (k : Nat) {l : List α} (hnd : (l.map key).Nodup) {a : α} (ha : a ∈ l) :
    ((l.filter f).find? (fun x => key x == k) = some a) ↔
      (key a = k ∧ f a = true) := by
  constructor
  · intro hfind
    have hmem := List.mem_of_find?_eq_some hfind
    rcases List.mem_filter.mp hmem with ⟨_, hf⟩
    have hkey : key a = k := by simpa using List.find?_some hfind
    exact ⟨hkey, hf⟩
  · rintro ⟨hkey, hf⟩
    cases hfind : (l.filter f).find? (fun x => key x == k) with
    | none =>
      exfalso
      have := List.find?_eq_none.mp hfind a (List.mem_filter.mpr ⟨ha, hf⟩)
      simp [hkey] at this
    | some b =>
      have hbmem := List.mem_of_find?_eq_some hfind
      rcases List.mem_filter.mp hbmem with ⟨hbmem', _⟩
      have hbkey : key b = k := by simpa using List.find?_some hfind
      have : b = a :=
        eq_of_key_eq_of_nodup_map key hnd hbmem' ha (by rw [hbkey, hkey])
      rw [this]

/-- A keyed `find?` with distinct keys returns a given member exactly
when that member carries the key. -/
theorem find_key_eq_some_iff {α : Type} (key : α → Nat) (k : Nat)
    {l : List α} (hnd : (l.map key).Nodup) {a : α} (ha : a ∈ l) :
    (l.find? (fun x => key x == k) = some a) ↔ key a = k := by
  have := find_key_filter_eq_some_iff key (fun _ => true) k hnd ha
  simpa using this

/-- `categoryPublished` as an existential over the category table (valid
when category primary keys are distinct). -/
theorem categoryPublished_iff (db : Db) (p : Post)
    (hnd : (db.categories.map Category.id).Nodup) :
    categoryPublished db p = true ↔
      ∃ c ∈ db.categories, p.category = some c.id ∧ c.is_published = true := by
  cases hcat : p.category with
  | none => simp [categoryPublished, hcat]
  | some cid =>
    cases hfind : db.categories.find? (fun c => c.id == cid) with
    | none =>
      simp only [categoryPublished, hcat, hfind]
      constructor
      · intro h; exact absurd h (by simp)
      · rintro ⟨c, hc, hsome, hpub⟩
        injection hsome with hcid
        have hnone := List.find?_eq_none.mp hfind c hc
        simp [hcid] at hnone
    | some c =>
      simp only [categoryPublished, hcat, hfind]
      constructor
      · intro hpub
        have hkey : c.id = cid := by simpa using List.find?_some hfind
        exact ⟨c, List.mem_of_find?_eq_some hfind, by rw [hkey], hpub⟩
      · rintro ⟨c', hc', hsome, hpub⟩
        injection hsome with hcid
        have hfkey : c.id = cid := by simpa using List.find?_some hfind
        have hceq : c' = c :=
          eq_of_key_eq_of_nodup_map Category.id hnd hc'
            (List.mem_of_find?_eq_some hfind) (by rw [← hcid, hfkey])
        rw [← hceq]; exact hpub

/-- C1, counterexample.  The spec's visibility predicate marks the
author's own unpublished post and the category-less published post as
visible (to author 1 and to an anonymous viewer respectively), yet the
index listing built from `get_base_queryset` contains neither. -/
theorem c1_counterexample :
    postDraft ∈ dbVis.posts ∧ specVisibleTo (some 1) dbVis 10 postDraft = true ∧
    postNoCat ∈ dbVis.posts ∧ specVisibleTo none dbVis 10 postNoCat = true ∧
    indexListing dbVis 10 = [] := by
  refine ⟨?_, ?_, ?_, ?_, ?_⟩ <;> decide

/-- C1, amended.  A post appears in the index listing iff it is
published, scheduled no later than `now`, and its category is set and
references a published category — independent of the viewer (there is
no author clause, and an unset category excludes the post); the
category listing is the same filter restricted to the requested
category. -/
theorem c1_listing_filter (db : Db) (now : Nat)
    (hnd : (db.categories.map Category.id).Nodup) :
    (∀ p, p ∈ db.posts →
      (p ∈ indexListing db now ↔
        (p.is_published = true ∧ p.pub_date ≤ now ∧
          ∃ c ∈ db.categories, p.category = some c.id ∧ c.is_published = true)))
    ∧ (∀ slug cat posts, categoryPostsListing db now slug = .ok (cat, posts) →
        ∀ p, p ∈ posts ↔ (p ∈ indexListing db now ∧ p.category = some cat.id)) := by
  constructor
  · intro p hp
    unfold indexListing baseQueryset
    rw [List.mem_filter]
    unfold baseFilter
    rw [← categoryPublished_iff db p hnd]
    simp [hp, and_assoc]
  · intro slug cat posts hok p
    cases hfind : db.categories.find? (fun c => c.slug == slug && c.is_published) with
    | none =>
      simp only [categoryPostsListing, hfind] at hok
      exact Except.noConfusion hok
    | some c =>
      simp only [categoryPostsListing, hfind, Except.ok.injEq, Prod.mk.injEq] at hok
      obtain ⟨hcat, hposts⟩ := hok
      subst hcat; subst hposts
      simp [List.mem_filter, indexListing]

/-- C1 witness: a fully public post is in the listing, by the amended
theorem at a concrete store. -/
theorem c1_listing_filter_witness :
    postPub ∈ indexListing dbPub 10 ↔
      (postPub.is_published = true ∧ postPub.pub_date ≤ 10 ∧
        ∃ c ∈ dbPub.categories, postPub.category = some c.id ∧
          c.is_published = true) :=
  (c1_listing_filter dbPub 10 (by decide)).1 postPub (by decide)

/-- C2, counterexample.  The detail view's queryset is the public-only
base queryset: the author of an unpublished past-dated post (and the
anonymous reader of a category-less published post) is told `NotFound`
even though the claim says the post is visible to them. -/
theorem c2_counterexample :
    postDraft ∈ dbVis.posts ∧ specVisibleTo (some 1) dbVis 10 postDraft = true ∧
    postDetail dbVis 10 postDraft.id = Except.error Err.notFound ∧
    postNoCat ∈ dbVis.posts ∧ specVisibleTo none dbVis 10 postNoCat = true ∧
    postDetail dbVis 10 postNoCat.id = Except.error Err.notFound :=
  ⟨by decide, by decide, rfl, by decide, by decide, rfl⟩

/-- C2, amended.  The view-post-detail operation returns the post with
id `pid` iff that post passes the public filter (published, scheduled
no later than `now`, category set and published); the viewer plays no
role, so the author of a filtered-out post gets `NotFound` like anyone
else, and when every post with that id is filtered out the result is
`NotFound`. -/
theorem c2_detail_public_only (db : Db) (now pid : Nat) (p : Post)
    (hnd : (db.posts.map Post.id).Nodup) (hp : p ∈ db.posts) :
    (postDetail db now pid = .ok p ↔ (p.id = pid ∧ baseFilter db now p = true))
    ∧ ((∀ q ∈ db.posts, q.id = pid → baseFilter db now q = false) →
        postDetail db now pid = .error .notFound) := by
  constructor
  · cases hfind : (db.posts.filter (baseFilter db now)).find? (fun x => x.id == pid) with
    | none =>
      simp only [postDetail, baseQueryset, hfind]
      constructor
      · intro h; exact Except.noConfusion h
      · intro hcon
        have h2 := (find_key_filter_eq_some_iff Post.id (baseFilter db now) pid hnd hp).mpr hcon
        rw [hfind] at h2
        exact Option.noConfusion h2
    | some q =>
      simp only [postDetail, baseQueryset, hfind, Except.ok.injEq]
      constructor
      · rintro rfl
        exact (find_key_filter_eq_some_iff Post.id (baseFilter db now) pid hnd hp).mp hfind
      · intro hcon
        have h2 := (find_key_filter_eq_some_iff Post.id (baseFilter db now) pid hnd hp).mpr hcon
        rw [hfind] at h2
        injection h2
  · intro hall
    unfold postDetail baseQueryset
    rw [find_key_filter_eq_none Post.id (baseFilter db now) pid db.posts hall]

/-- C2 witness: the amended theorem applied at a concrete store — the
public post is returned exactly because it passes the public filter. -/
theorem c2_detail_public_only_witness :
    postDetail dbPub 10 postPub.id = .ok postPub ↔
      (postPub.id = postPub.id ∧ baseFilter dbPub 10 postPub = true) :=
  (c2_detail_public_only dbPub 10 postPub.id postPub (by decide) (by decide)).1

/-- Anything the author-filtered post queryset yields belongs to the
store, carries the requested id, and is owned by the viewer. -/
theorem fetch_post_author {db : Db} {viewer : User} {pid : Nat} {q : Post}
    (h : fetchPostForEdit db viewer pid = some q) :
    q ∈ db.posts ∧ q.id = pid ∧ q.author = viewer.id := by
  unfold fetchPostForEdit at h
  have hmem := List.mem_of_find?_eq_some h
  rcases List.mem_filter.mp hmem with ⟨hm, hf⟩
  exact ⟨hm, by simpa using List.find?_some h, by simpa using hf⟩

/-- Anything the author-filtered comment queryset yields belongs to the
store, carries the requested id, and is owned by the viewer. -/
theorem fetch_comment_author {db : Db} {viewer : User} {cid : Nat} {q : Comment}
    (h : fetchCommentForEdit db viewer cid = some q) :
    q ∈ db.comments ∧ q.id = cid ∧ q.author = viewer.id := by
  unfold fetchCommentForEdit at h
  have hmem := List.mem_of_find?_eq_some h
  rcases List.mem_filter.mp hmem with ⟨hm, hf⟩
  exact ⟨hm, by simpa using List.find?_some h, by simpa using hf⟩

/-- C3: edit/delete of a post or comment reaches the entity iff the
requesting user is its author — `is_staff` does not enter the querysets
(the `viewer` here carries an arbitrary `is_staff` value), and each
mutating operation succeeds only on an author-owned entity, returning
`NotFound` on every other outcome. -/
theorem c3_owner_only_mutation (db : Db) (viewer : User) (p : Post) (c : Comment)
    (hpn : (db.posts.map Post.id).Nodup) (hcn : (db.comments.map Comment.id).Nodup)
    (hp : p ∈ db.posts) (hc : c ∈ db.comments) :
    (fetchPostForEdit db viewer p.id = some p ↔ p.author = viewer.id)
    ∧ (fetchCommentForEdit db viewer c.id = some c ↔ c.author = viewer.id)
    ∧ (∀ f db', updatePostOp db viewer p.id f = .ok db' → p.author = viewer.id)
    ∧ (∀ db', deletePostOp db viewer p.id = .ok db' → p.author = viewer.id)
    ∧ (∀ text db', editCommentOp db viewer c.id text = .ok db' → c.author = viewer.id)
    ∧ (∀ db', deleteCommentOp db viewer c.id = .ok db' → c.author = viewer.id) := by
  have hpostiff : fetchPostForEdit db viewer p.id = some p ↔ p.author = viewer.id := by
    unfold fetchPostForEdit
    rw [find_key_filter_eq_some_iff Post.id (fun q => q.author == viewer.id) p.id hpn hp]
    simp
  have hcommiff : fetchCommentForEdit db viewer c.id = some c ↔ c.author = viewer.id := by
    unfold fetchCommentForEdit
    rw [find_key_filter_eq_some_iff Comment.id (fun d => d.author == viewer.id) c.id hcn hc]
    simp
  have hpostmatch : ∀ q, fetchPostForEdit db viewer p.id = some q → p.author = viewer.id := by
    intro q hq
    obtain ⟨hmem, hid, hauth⟩ := fetch_post_author hq
    have : q = p := eq_of_key_eq_of_nodup_map Post.id hpn hmem hp hid
    rw [← this]; exact hauth
  have hcommmatch : ∀ q, fetchCommentForEdit db viewer c.id = some q → c.author = viewer.id := by
    intro q hq
    obtain ⟨hmem, hid, hauth⟩ := fetch_comment_author hq
    have : q = c := eq_of_key_eq_of_nodup_map Comment.id hcn hmem hc hid
    rw [← this]; exact hauth
  refine ⟨hpostiff, hcommiff, ?_, ?_, ?_, ?_⟩
  · intro f db' hok
    unfold updatePostOp at hok
    cases hfetch : fetchPostForEdit db viewer p.id with
    | none => rw [hfetch] at hok; exact Except.noConfusion hok
    | some q => exact hpostmatch q hfetch
  · intro db' hok
    unfold deletePostOp at hok
    cases hfetch : fetchPostForEdit db viewer p.id with
    | none => rw [hfetch] at hok; exact Except.noConfusion hok
    | some q => exact hpostmatch q hfetch
  · intro text db' hok
    unfold editCommentOp at hok
    cases hfetch : fetchCommentForEdit db viewer c.id with
    | none => rw [hfetch] at hok; exact Except.noConfusion hok
    | some q => exact hcommmatch q hfetch
  · intro db' hok
    unfold deleteCommentOp at hok
    cases hfetch : fetchCommentForEdit db viewer c.id with
    | none => rw [hfetch] at hok; exact Except.noConfusion hok
    | some q => exact hcommmatch q hfetch

/-- C3 witness: at a concrete store, user 7 reaches their own post
through the edit queryset exactly because they are its author. -/
theorem c3_owner_only_mutation_witness :
    fetchPostForEdit dbPub ⟨7, false⟩ postPub.id = some postPub ↔
      postPub.author = (⟨7, false⟩ : User).id :=
  (c3_owner_only_mutation dbPub ⟨7, false⟩ postPub commentOther
    (by decide) (by decide) (by decide) (by decide)).1

/-- C5: requesting a category whose every record under the slug is
unpublished yields `NotFound`, whatever the posts in it look like (the
post table is not consulted at all). -/
theorem c5_unpublished_category_404 (db : Db) (now : Nat) (slug : String)
    (h : ∀ c ∈ db.categories, c.slug = slug → c.is_published = false) :
    categoryPostsListing db now slug = .error .notFound := by
  have hfind : db.categories.find? (fun c => c.slug == slug && c.is_published) = none := by
    rw [List.find?_eq_none]
    intro c hc hcontra
    simp only [Bool.and_eq_true, beq_iff_eq] at hcontra
    rw [h c hc hcontra.1] at hcontra
    exact Bool.false_ne_true hcontra.2
  simp only [categoryPostsListing, hfind]

/-- C5 witness: the store `dbHidden` holds a fully publishable post in
the unpublished category "hidden", and the category listing still
answers `NotFound`. -/
theorem c5_unpublished_category_404_witness :
    (postInHidden.is_published = true ∧ postInHidden.pub_date ≤ 10) ∧
    categoryPostsListing dbHidden 10 "hidden" = .error .notFound :=
  ⟨by decide, c5_unpublished_category_404 dbHidden 10 "hidden" (by decide)⟩

/-- C6: with a post present under the requested id, a comment whose
text trims to the empty string is rejected with a validation error and
nothing is stored. -/
theorem c6_blank_comment_rejected (db : Db) (viewer : User) (pid : Nat)
    (text : String) (newId createdAt : Nat)
    (hpost : ∃ p ∈ db.posts, p.id = pid)
    (htext : ∀ ch ∈ text.data, ch.isWhitespace) :
    addComment db viewer pid text newId createdAt = .error .validationError := by
  obtain ⟨p, hp, hpid⟩ := hpost
  cases hfind : db.posts.find? (fun q => q.id == pid) with
  | none =>
    exfalso
    have := List.find?_eq_none.mp hfind p hp
    simp [hpid] at this
  | some q =>
    have hvalid : commentTextValid text = false := by
      simp only [commentTextValid, List.any_eq_false]
      intro ch hch
      simp [htext ch hch]
    simp only [addComment, hfind, hvalid]
    rfl

/-- C6 witness: a whitespace-only comment on the existing post 13 is
rejected. -/
theorem c6_blank_comment_rejected_witness :
    addComment dbPub ⟨5, false⟩ 13 " " 1 0 = .error .validationError :=
  c6_blank_comment_rejected dbPub ⟨5, false⟩ 13 " " 1 0
    ⟨postPub, by decide, rfl⟩ (by decide)

/-- C10: when every stored comment under the requested id belongs to
someone else — which covers both an absent comment and another user's
comment — comment edit and comment delete return the same `NotFound`
outcome, so the requester cannot tell the two situations apart. -/
theorem c10_comment_mutation_indistinguishable (db : Db) (viewer : User)
    (cid : Nat) (text : String)
    (h : ∀ c ∈ db.comments, c.id = cid → c.author ≠ viewer.id) :
    editCommentOp db viewer cid text = .error .notFound
    ∧ deleteCommentOp db viewer cid = .error .notFound := by
  have hfetch : fetchCommentForEdit db viewer cid = none := by
    unfold fetchCommentForEdit
    apply find_key_filter_eq_none Comment.id (fun d => d.author == viewer.id) cid
    intro a ha hid
    rw [beq_eq_false_iff_ne]
    exact h a ha hid
  constructor
  · simp only [editCommentOp, hfetch]
  · simp only [deleteCommentOp, hfetch]

/-- C10 witness: user 7 asking to edit or delete comment 1, which is
owned by user 2, gets `NotFound` from both operations — the same answer
an absent comment id produces. -/
theorem c10_comment_mutation_indistinguishable_witness :
    editCommentOp dbPub ⟨7, false⟩ 1 "x" = .error .notFound
    ∧ deleteCommentOp dbPub ⟨7, false⟩ 1 = .error .notFound :=
  c10_comment_mutation_indistinguishable dbPub ⟨7, false⟩ 1 "x" (by decide)

/-- C4, counterexample.  With two filtered posts sharing a `pub_date`,
both orders satisfy everything `.order_by('-pub_date')` demands of the
engine, so the result is not deterministic, and the order that puts the
larger id first violates the claimed id-ascending tie-break. -/
theorem c4_counterexample :
    orderByPubDateDescAdmissible (mixinsPostRows dbTie 10 true) [postTieA, postTieB]
    ∧ orderByPubDateDescAdmissible (mixinsPostRows dbTie 10 true) [postTieB, postTieA]
    ∧ [postTieA, postTieB] ≠ [postTieB, postTieA]
    ∧ ¬ claimListingOrder [postTieB, postTieA] := by
  have hrows : mixinsPostRows dbTie 10 true = [postTieA, postTieB] := by decide
  refine ⟨⟨?_, ?_⟩, ⟨?_, ?_⟩, ?_, ?_⟩
  · rw [hrows]
  · decide
  · rw [hrows]; exact List.Perm.swap postTieA postTieB []
  · decide
  · decide
  · intro hcon
    have := (List.pairwise_cons.mp hcon).1 postTieA (by simp)
    rcases this with hlt | ⟨_, hid⟩
    · exact absurd hlt (by decide)
    · exact absurd hid (by decide)

/-- C4, amended.  Every engine-admissible result of the ordered listing
is sorted non-increasingly by `pub_date` and contains exactly the
filtered posts, and any two admissible results agree on the `pub_date`
sequence — but nothing more: the relative order of equal-`pub_date`
posts is left to the engine (`order_by('-pub_date')` has no secondary
key; the views.py `get_base_queryset` attaches no ordering at all). -/
theorem c4_order_underdetermined (db : Db) (now : Nat) (o o₂ : List Post)
    (h : orderByPubDateDescAdmissible (mixinsPostRows db now true) o)
    (h₂ : orderByPubDateDescAdmissible (mixinsPostRows db now true) o₂) :
    o.Pairwise (fun a b => b.pub_date ≤ a.pub_date)
    ∧ (∀ p, p ∈ o ↔ p ∈ mixinsPostRows db now true)
    ∧ o.map Post.pub_date = o₂.map Post.pub_date := by
  obtain ⟨hperm, hsort⟩ := h
  obtain ⟨hperm₂, hsort₂⟩ := h₂
  refine ⟨hsort, fun p => hperm.mem_iff, ?_⟩
  have hp : (o.map Post.pub_date).Perm (o₂.map Post.pub_date) :=
    (hperm.trans hperm₂.symm).map Post.pub_date
  have hs1 : (o.map Post.pub_date).Pairwise (fun a b : Nat => b ≤ a) :=
    List.pairwise_map.mpr hsort
  have hs2 : (o₂.map Post.pub_date).Pairwise (fun a b : Nat => b ≤ a) :=
    List.pairwise_map.mpr hsort₂
  haveI : IsAntisymm Nat (fun a b : Nat => b ≤ a) :=
    ⟨fun a b h1 h2 => le_antisymm h2 h1⟩
  exact List.eq_of_perm_of_sorted hp hs1 hs2

/-- C4 witness: the amended theorem applied to the concrete two-post
store with one admissible output. -/
theorem c4_order_underdetermined_witness :
    [postTieA, postTieB].Pairwise (fun a b => b.pub_date ≤ a.pub_date) :=
  (c4_order_underdetermined dbTie 10 [postTieA, postTieB] [postTieA, postTieB]
    ⟨List.Perm.refl _, by decide⟩ ⟨List.Perm.refl _, by decide⟩).1

/-- C7, counterexample.  A published, past-dated, category-less post by
user 2 satisfies the spec's §3 public-visibility predicate, yet a
stranger viewing user 2's profile sees an empty post set: the code's
triple filter drops the `NULL`-category post. -/
theorem c7_counterexample :
    postNoCat ∈ dbVis.posts ∧ postNoCat.author = 2 ∧
    specPubliclyVisible dbVis 10 postNoCat = true ∧
    userPosts dbVis (some 3) 2 10 = [] := by
  decide

/-- C7, amended.  The owner of a profile sees their full, comment-count
annotated post collection; any other viewer sees exactly the owner's
posts passing the code's triple filter (published, scheduled no later
than `now`, category set and published — which, unlike §3, excludes a
post with no category). -/
theorem c7_profile_posts (db : Db) (viewer : Option Nat) (u : Nat) (now : Nat)
    (p : Post) (k : Nat) :
    (viewer = some u →
      ((p, k) ∈ userPosts db viewer u now ↔
        (p ∈ db.posts ∧ p.author = u ∧ k = commentCount db p)))
    ∧ (viewer ≠ some u →
      ((p, k) ∈ userPosts db viewer u now ↔
        (p ∈ db.posts ∧ p.author = u ∧ baseFilter db now p = true ∧
          k = commentCount db p))) := by
  constructor
  · intro h
    subst h
    unfold userPosts
    rw [if_pos (by simp : ((some u == some u) = true))]
    constructor
    · intro hmem
      rcases List.mem_map.mp hmem with ⟨a, ha, heq⟩
      rcases List.mem_filter.mp ha with ⟨hmem', hauth⟩
      injection heq with h1 h2
      subst h1
      subst h2
      exact ⟨hmem', by simpa using hauth, rfl⟩
    · rintro ⟨hp, hau, rfl⟩
      exact List.mem_map.mpr ⟨p, List.mem_filter.mpr ⟨hp, by simpa using hau⟩, rfl⟩
  · intro h
    unfold userPosts
    rw [if_neg (by simpa using h)]
    constructor
    · intro hmem
      rcases List.mem_filter.mp hmem with ⟨hmem', hbf⟩
      rcases List.mem_map.mp hmem' with ⟨a, ha, heq⟩
      rcases List.mem_filter.mp ha with ⟨hmem'', hauth⟩
      injection heq with h1 h2
      subst h1
      subst h2
      exact ⟨hmem'', by simpa using hauth, by simpa using hbf, rfl⟩
    · rintro ⟨hp, hau, hbf, rfl⟩
      refine List.mem_filter.mpr
        ⟨List.mem_map.mpr ⟨p, List.mem_filter.mpr ⟨hp, by simpa using hau⟩, rfl⟩, ?_⟩
      simpa using hbf

/-- C7 witness: the amended theorem applied to the concrete store — the
owner sees their post with its live comment count. -/
theorem c7_profile_posts_witness :
    (postPub, 1) ∈ userPosts dbPub (some 7) 7 10 ↔
      (postPub ∈ dbPub.posts ∧ postPub.author = 7 ∧
        1 = commentCount dbPub postPub) :=
  (c7_profile_posts dbPub (some 7) 7 10 postPub 1).1 rfl

/-- C8, counterexample.  The profile box holds exactly one post and one
page; the claim says page 5 returns an empty page and page 0 fails with
`ValidationError`, but `Paginator.get_page` clamps both to the last
page, returning the full single page and never an error. -/
theorem c8_counterexample :
    profilePage dbPub (some 7) 7 10 10 (some 5) = [(postPub, 1)]
    ∧ profilePage dbPub (some 7) 7 10 10 (some 0) = [(postPub, 1)] := by
  constructor <;> decide

/-- C8, amended.  `page` is 1-indexed; `get_page` always lands on a
page between 1 and `num_pages`: a missing/non-numeric argument gives
page 1, an argument below 1 or above `num_pages` gives the last page
(never an error), and on a non-empty collection that last page is
itself non-empty rather than empty. -/
theorem c8_get_page_clamps (count perPage : Nat) (arg : Option Int) (n : Int)
    (hpp : 0 < perPage) :
    (1 ≤ getPageNumber count perPage arg
      ∧ getPageNumber count perPage arg ≤ numPages count perPage)
    ∧ (arg = some n → n < 1 →
        getPageNumber count perPage arg = numPages count perPage)
    ∧ (arg = some n → (numPages count perPage : Int) < n →
        getPageNumber count perPage arg = numPages count perPage)
    ∧ (∀ l : List (Post × Nat), l ≠ [] →
        pageItems l perPage (numPages l.length perPage) ≠ []) := by
  have hnp : ∀ c : Nat, 1 ≤ numPages c perPage := by
    intro c
    unfold numPages
    rw [Nat.le_div_iff_mul_le hpp, one_mul]
    have h1 : 1 ≤ max 1 c := le_max_left 1 c
    omega
  refine ⟨?_, ?_, ?_, ?_⟩
  · cases arg with
    | none =>
      simp only [getPageNumber]
      exact ⟨le_refl 1, hnp count⟩
    | some m =>
      simp only [getPageNumber]
      split_ifs with h1 h2
      · exact ⟨hnp count, le_refl _⟩
      · exact ⟨hnp count, le_refl _⟩
      · push_neg at h1 h2
        omega
  · rintro rfl hn
    simp only [getPageNumber]
    rw [if_pos hn]
  · rintro rfl hn
    have h1 : ¬ n < 1 := by
      have := hnp count
      omega
    simp only [getPageNumber]
    rw [if_neg h1, if_pos hn]
  · intro l hl
    have hlen : 1 ≤ l.length := List.length_pos.mpr hl
    have hmax : max 1 l.length = l.length := max_eq_right hlen
    have h1np : 1 ≤ numPages l.length perPage := hnp l.length
    have hmul : numPages l.length perPage * perPage ≤ l.length + perPage - 1 := by
      unfold numPages
      rw [hmax]
      exact Nat.div_mul_le_self _ _
    obtain ⟨k, hk⟩ : ∃ k, numPages l.length perPage = k + 1 :=
      ⟨numPages l.length perPage - 1, by omega⟩
    have hsplit : (numPages l.length perPage - 1) * perPage + perPage
        = numPages l.length perPage * perPage := by
      rw [hk, Nat.add_sub_cancel, Nat.succ_mul]
    have hlt : (numPages l.length perPage - 1) * perPage < l.length := by omega
    intro hempty
    have hlen0 := congrArg List.length hempty
    simp only [pageItems, List.length_take, List.length_drop,
      List.length_nil] at hlen0
    omega

/-- C8 witness: with one item and page size 10, requesting page 0 is
clamped to the last page instead of failing. -/
theorem c8_get_page_clamps_witness :
    getPageNumber 1 10 (some 0) = numPages 1 10 :=
  (c8_get_page_clamps 1 10 (some 0) 0 (by decide)).2.1 rfl (by decide)

/-- C9: `author` is assigned from the acting user at creation
(`form_valid` sets `form.instance.author = request.user`), and the edit
operation writes back only the form's declared fields, so a successful
edit leaves every post's author unchanged. -/
theorem c9_author_immutable (actor : User) (f : PostFields) (newId : Nat)
    (db : Db) (viewer : User) (pid : Nat) (g : PostFields) (db' : Db)
    (h : updatePostOp db viewer pid g = .ok db') :
    (createPost actor f newId).author = actor.id
    ∧ db'.posts.map Post.author = db.posts.map Post.author := by
  refine ⟨rfl, ?_⟩
  cases hfetch : fetchPostForEdit db viewer pid with
  | none =>
    simp only [updatePostOp, hfetch] at h
    exact Except.noConfusion h
  | some q =>
    simp only [updatePostOp, hfetch, Except.ok.injEq] at h
    subst h
    simp only [List.map_map]
    apply List.map_congr_left
    intro x hx
    by_cases hc : (x.id == q.id) = true <;>
      simp [Function.comp, hc, applyPostFields]

/-- C9 witness: user 7 edits their post 13; the author column is
unchanged and a fresh post is stamped with its creator. -/
theorem c9_author_immutable_witness :
    (createPost ⟨7, false⟩ ⟨"t", "x", 3, none, some 1, none⟩ 99).author
      = (⟨7, false⟩ : User).id
    ∧ ({ dbPub with
          posts := [applyPostFields postPub ⟨"t", "x", 3, none, some 1, none⟩] } : Db).posts.map
        Post.author = dbPub.posts.map Post.author :=
  c9_author_immutable ⟨7, false⟩ ⟨"t", "x", 3, none, some 1, none⟩ 99 dbPub
    ⟨7, false⟩ 13 ⟨"t", "x", 3, none, some 1, none⟩
    { dbPub with
      posts := [applyPostFields postPub ⟨"t", "x", 3, none, some 1, none⟩] } rfl
